import Mathlib

/-!
# Verification development for the LocalStack entry client (`go/main.go`)

The program is an interactive command-line client.  `createBaseUrls` asks the
API Gateway control plane for the deployed REST APIs and derives two base URLs;
`main` then runs a command loop that dispatches to five handlers, each of which
reads further input with `fmt.Scanln`, builds one HTTP request and prints the
response.

The embedding is explicit state passing over a `World` (standard input still to
be read, everything written so far, the two package-level URL untouched).  The
calls the program makes into libraries (`os.ReadFile`, `json.Unmarshal`,
`http.NewRequest`, the HTTP transport, the API Gateway client) are parameters:
every theorem is quantified over all of their possible results.
-/

namespace Localstack

/-! ## Data model -/

deriving instance DecidableEq for Except

/-- Go `[]byte`. -/
abbrev Bytes := List UInt8

/-- The `Entry` struct decoded from the JSON file given to the update handler. -/
structure Entry where
  Date : String
  Application : String
  Passed : Int
  Failed : Int
  Total : Int
  deriving DecidableEq

/-- An `*http.Request` as the handlers build it: method, the raw URL string
handed to the library, the optional body and the headers set on it. -/
structure Request where
  method : String
  url : String
  body : Option Bytes
  header : List (String × String)
  deriving DecidableEq

/-- What the process does that is visible from outside, in order. -/
inductive Event where
  /-- Text written to standard output by `fmt.Print`, `fmt.Println`, `fmt.Printf`. -/
  | print (s : String)
  /-- The line `fmt.Printf("Response: %s\n", body)` for a response body. -/
  | printResponse (body : Bytes)
  /-- A request handed to the HTTP client (`http.Get`, `http.Post`, `client.Do`). -/
  | send (r : Request)
  deriving DecidableEq

/-- Process state: the successive values `fmt.Scanln` will store (one per call),
the output so far, and the two package-level untouched. -/
structure World where
  stdin : List String
  out : List Event
  apiBaseURLCRUD : String
  apiBaseURLList : String
  deriving DecidableEq

/-- The library calls of the handlers, as parameters. -/
structure Env where
  /-- Result of `os.ReadFile(path)`: the error text or the file's bytes. -/
  ReadFile : String → Except String Bytes
  /-- Result of `json.Unmarshal(bytes, &entry)` on a zero `Entry`. -/
  Unmarshal : Bytes → Except String Entry
  /-- The error of `http.NewRequest(method, url, body)`, `none` when the request is built. -/
  NewRequest : String → String → Option String
  /-- What the HTTP client returns for a request: an error text or the response body. -/
  RoundTrip : Request → Except String Bytes

/-! ## Constants and package-level untouched -/

def apiBaseURLPrefix : String := "http://"
def apiBaseURLCRUDSuffix : String := ".execute-api.localhost.localstack.cloud:4566/dev/entry"
def apiBaseURLListSuffix : String := ".execute-api.localhost.localstack.cloud:4566/dev/entries"

/-- The state the process starts in: both URL untouched are `""`. -/
def initWorld (stdin : List String) : World :=
  { stdin := stdin, out := [], apiBaseURLCRUD := "", apiBaseURLList := "" }

/-! ## Library primitives used by the handlers -/

/-- Writes text to standard output. -/
def Print (w : World) (s : String) : World :=
  { w with out := w.out ++ [Event.print s] }

/-- The Go `fmt.Println` of one already spaced line: the text and a newline. -/
def Println (w : World) (s : String) : World :=
  Print w (s ++ "\n")

/-- The Go `fmt.Scanln(&v)` for a string `v`: stores the next token; when the
input is exhausted the call fails and `v` keeps its zero value `""`. -/
def Scanln (w : World) : String × World :=
  match w.stdin with
  | [] => ("", w)
  | t :: rest => (t, { w with stdin := rest })

/-- Go `unicode.IsSpace`. -/
def isSpace (c : Char) : Bool :=
  let n := c.toNat
  (9 ≤ n && n ≤ 13) || n == 32 || n == 0x85 || n == 0xA0 || n == 0x1680 ||
  (0x2000 ≤ n && n ≤ 0x200A) || n == 0x2028 || n == 0x2029 || n == 0x202F ||
  n == 0x205F || n == 0x3000

/-- Go `strings.TrimSpace`: leading, then trailing white space removed. -/
def TrimSpace (s : String) : String :=
  ⟨(((s.data.dropWhile isSpace).reverse).dropWhile isSpace).reverse⟩

/-- Go `strings.Join`. -/
def Join : List String → String → String
  | [], _ => ""
  | [a], _ => a
  | a :: b :: rest, sep => a ++ sep ++ Join (b :: rest) sep

/-- Go `strings.Contains`. -/
def Contains (s substr : String) : Bool :=
  s.data.tails.any (fun t => substr.data.isPrefixOf t)

/-- The requests handed to the HTTP client among a list of events. -/
def sent : List Event → List Request
  | [] => []
  | Event.send r :: es => r :: sent es
  | _ :: es => sent es

/-- The Go `http.NewRequest(method, url, body)`. -/
def NewRequest (env : Env) (method url : String) (body : Option Bytes) :
    Except String Request :=
  match env.NewRequest method url with
  | some err => .error err
  | none => .ok { method := method, url := url, body := body, header := [] }

/-- The Go `req.Header.Set(key, value)`. -/
def headerSet (req : Request) (key value : String) : Request :=
  { req with header := (req.header.filter (fun kv => kv.1 != key)) ++ [(key, value)] }

/-- The Go `client.Do(req)`: the request goes to the HTTP client. -/
def clientDo (env : Env) (w : World) (req : Request) : Except String Bytes × World :=
  (env.RoundTrip req, { w with out := w.out ++ [Event.send req] })

/-- The Go `http.Get(url)`: the request is built with `http.NewRequest`, whose
error is returned before anything is sent, and then goes to the HTTP client. -/
def httpGet (env : Env) (w : World) (url : String) : Except String Bytes × World :=
  match NewRequest env "GET" url none with
  | .error err => (.error err, w)
  | .ok req => clientDo env w req

/-- The Go `http.Post(url, contentType, body)`.  The program passes it the CRUD
base URL alone, which holds no input of the user; the request goes to the HTTP
client. -/
def httpPost (env : Env) (w : World) (url contentType : String) (body : Bytes) :
    Except String Bytes × World :=
  clientDo env w
    { method := "POST", url := url, body := some body,
      header := [("Content-Type", contentType)] }

/-- The tail shared by all handlers: `body, _ := io.ReadAll(resp.Body)` and
`fmt.Printf("Response: %s\n", body)`. -/
def printResponse (w : World) (body : Bytes) : World :=
  { w with out := w.out ++ [Event.printResponse body] }

/-- The Go `fmt.Sprintf("%s?date=%s&application=%s", base, date, application)`. -/
def sprintfQuery (base date application : String) : String :=
  base ++ "?date=" ++ date ++ "&application=" ++ application

/-! ## File access -/

/-- The function `readFile`: the bytes of `os.ReadFile`, or its error. -/
def readFile (env : Env) (filepath : String) : Except String Bytes :=
  match env.ReadFile filepath with
  | .error err => .error err
  | .ok fileContent => .ok fileContent

/-! ## Handlers -/

/-- The function `handlePost`: prompts for a file and posts its content. -/
def handlePost (env : Env) (w : World) : World :=
  let w := Println w "Enter the path to the file for POST:"
  let (filepath, w) := Scanln w
  match readFile env filepath with
  | .error err => Println w ("Error reading file: " ++ err)
  | .ok fileContent =>
    let url := w.apiBaseURLCRUD
    match httpPost env w url "application/json" fileContent with
    | (.error err, w) => Println w ("Error sending POST request: " ++ err)
    | (.ok body, w) => printResponse w body

/-- The function `handlePut`: prompts for a file, decodes it as an `Entry`,
checks the two mandatory fields and puts the file content. -/
def handlePut (env : Env) (w : World) : World :=
  let w := Println w "Enter the path to the file for PUT:"
  let (filepath, w) := Scanln w
  match readFile env filepath with
  | .error err => Println w ("Error reading file: " ++ err)
  | .ok fileContent =>
    match env.Unmarshal fileContent with
    | .error err => Println w ("Error unmarshaling JSON: " ++ err)
    | .ok entry =>
      if entry.Date == "" || entry.Application == "" then
        Println w "Error: Missing mandatory fields (date and application) in the JSON file."
      else
        let date := entry.Date
        let application := entry.Application
        let url := sprintfQuery w.apiBaseURLCRUD date application
        match NewRequest env "PUT" url (some fileContent) with
        | .error err => Println w ("Error creating PUT request: " ++ err)
        | .ok req =>
          let req := headerSet req "Content-Type" "application/json"
          match clientDo env w req with
          | (.error err, w) => Println w ("Error sending PUT request: " ++ err)
          | (.ok body, w) => printResponse w body

/-- The function `handleDelete`: prompts for date and application, trims them,
rejects an empty one and sends a DELETE. -/
def handleDelete (env : Env) (w : World) : World :=
  let w := Println w "Enter date:"
  let (date, w) := Scanln w
  let w := Println w "Enter application:"
  let (application, w) := Scanln w
  let date := TrimSpace date
  let application := TrimSpace application
  if date == "" || application == "" then
    Println w "Error: Both date or application must be provided."
  else
    let url := sprintfQuery w.apiBaseURLCRUD date application
    match NewRequest env "DELETE" url none with
    | .error err => Println w ("Error creating DELETE request: " ++ err)
    | .ok req =>
      match clientDo env w req with
      | (.error err, w) => Println w ("Error sending DELETE request: " ++ err)
      | (.ok body, w) => printResponse w body

/-- The function `handleFind`: prompts for date and application, trims them,
rejects an empty one and sends a GET. -/
def handleFind (env : Env) (w : World) : World :=
  let w := Println w "Enter date:"
  let (date, w) := Scanln w
  let w := Println w "Enter application:"
  let (application, w) := Scanln w
  let date := TrimSpace date
  let application := TrimSpace application
  if date == "" || application == "" then
    Println w "Error: Both date or application must be provided."
  else
    let url := sprintfQuery w.apiBaseURLCRUD date application
    match httpGet env w url with
    | (.error err, w) => Println w ("Error sending GET request: " ++ err)
    | (.ok body, w) => printResponse w body

/-- The function `handleList`: prompts for two optional filters and sends a GET
with the non-empty ones in the query string. -/
def handleList (env : Env) (w : World) : World :=
  let w := Println w "Enter date (or leave blank):"
  let (date, w) := Scanln w
  let w := Println w "Enter application (or leave blank):"
  let (application, w) := Scanln w
  let queryParams : List String := []
  let queryParams := if date != "" then queryParams ++ ["date=" ++ date] else queryParams
  let queryParams :=
    if application != "" then queryParams ++ ["application=" ++ application] else queryParams
  let url := w.apiBaseURLList
  let url := if queryParams.length > 0 then url ++ ("?" ++ Join queryParams "&") else url
  match httpGet env w url with
  | (.error err, w) => Println w ("Error sending GET request: " ++ err)
  | (.ok body, w) => printResponse w body

/-! ## Command loop -/

/-- One pass through the body of the `for` loop of `main`: the state after it
and whether the loop was left by `break`. -/
def loopBody (env : Env) (w : World) : World × Bool :=
  let w := Println w "Available commands: post, put, delete, find, list, quit"
  let w := Print w "Enter command: "
  let (command, w) := Scanln w
  if command == "quit" then
    (Println w "Exiting...", true)
  else if command == "post" then (handlePost env w, false)
  else if command == "put" then (handlePut env w, false)
  else if command == "delete" then (handleDelete env w, false)
  else if command == "find" then (handleFind env w, false)
  else if command == "list" then (handleList env w, false)
  else (Println w "Invalid command. Please try again.", false)

/-- The `for` loop of `main`, run for at most `fuel` passes: `some w` is the
state in which the loop was left, `none` means it is still running. -/
def commandLoop (env : Env) : Nat → World → Option World
  | 0, _ => none
  | fuel + 1, w =>
    match loopBody env w with
    | (w, true) => some w
    | (w, false) => commandLoop env fuel w

/-! ## Endpoint resolution -/

/-- An item of `GetRestApisOutput.Items`.  The SDK holds `Id` and `Name` behind
pointers; the model holds the strings they point to, which the service sets on
every item it lists. -/
structure RestApi where
  Id : String
  Name : String
  deriving DecidableEq

/-- An item of `GetResourcesOutput.Items`, with the strings its `Id` and `Path`
point to. -/
structure Resource where
  Id : String
  Path : String
  deriving DecidableEq

/-- What `svc.GetMethod` can answer for one HTTP method of one resource. -/
inductive MethodProbe where
  /-- No error: the method is bound. -/
  | found
  /-- An `awserr.Error` whose code is `apigateway.ErrCodeNotFoundException`. -/
  | notFound
  /-- Any other error, with its text. -/
  | failed (err : String)
  deriving DecidableEq

/-- The control-plane calls of `createBaseUrls`, as parameters. -/
structure Gateway where
  /-- The error of `session.NewSession`, `none` when the session is created. -/
  NewSession : Option String
  /-- Result of `svc.GetRestApis`: `resp.Items` and the error. -/
  GetRestApis : List RestApi × Option String
  /-- Result of `svc.GetResources` for an API id: `resourcesResp.Items` and the error. -/
  GetResources : String → List Resource × Option String
  /-- Result of `svc.GetMethod` for an API id, a resource id and an HTTP method. -/
  GetMethod : String → String → String → MethodProbe

/-- A Go run-time panic. -/
inductive Panic where
  /-- Evaluation of `s[index]` on a slice of the given length. -/
  | indexOutOfRange (index length : Nat)
  /-- Use of a nil pointer. -/
  | nilDereference
  deriving DecidableEq

/-- The Go `fmt.Errorf`: builds an error value; nothing is written anywhere. -/
def Errorf (text : String) : String := text

/-- Body of the loop over `methods` in `createBaseUrls`. -/
def probeMethod (gw : Gateway) (item : RestApi) (resource : Resource) (w : World)
    (method : String) : World :=
  match gw.GetMethod item.Id resource.Id method with
  | .notFound => w
  | .failed err =>
    Print w ("Failed to get method " ++ method ++ " for resource " ++ resource.Path ++ ": " ++ err)
  | .found => Print w ("  Method: " ++ method ++ "\n")

/-- Body of the loop over `resourcesResp.Items` in `createBaseUrls`. -/
def probeResource (gw : Gateway) (item : RestApi) (w : World) (resource : Resource) : World :=
  let w := Print w ("Resource ID: " ++ resource.Id ++ ", Resource Path: " ++ resource.Path ++ "\n")
  let methods := ["GET", "POST", "PUT", "DELETE"]
  methods.foldl (probeMethod gw item resource) w

/-- Body of the loop over `resp.Items` in `createBaseUrls`. -/
def describeApi (gw : Gateway) (w : World) (item : RestApi) : World :=
  let w := Print w ("API ID: " ++ item.Id ++ "\n")
  let w := Print w ("API Name: " ++ item.Name ++ "\n")
  match gw.GetResources item.Id with
  | (_, some err) => Print w ("Failed to get resources for API " ++ item.Id ++ ": " ++ err)
  | (items, none) => items.foldl (probeResource gw item) w

/-- The function `createBaseUrls`.  The result is the state in which it returns,
or the panic that ends the process together with the state at that point.
When `session.NewSession` fails the session is nil: the error is only given to
`fmt.Errorf`, and `apigateway.New(sess)` then uses the nil session. -/
def createBaseUrls (gw : Gateway) (w : World) : Except (Panic × World) World :=
  match gw.NewSession with
  | some err =>
    let _ := Errorf ("Failed to create session: " ++ err)
    .error (Panic.nilDereference, w)
  | none =>
    let (items, err) := gw.GetRestApis
    let _ := err.map (fun err => Errorf ("Failed to get rest APIs: " ++ err))
    let w := items.foldl (describeApi gw) w
    match items with
    | [] => .error (Panic.indexOutOfRange 0 0, w)
    | first :: _ =>
      let apiID := first.Id
      let baseURLCRUD := apiBaseURLPrefix ++ apiID ++ apiBaseURLCRUDSuffix
      let baseURLList := apiBaseURLPrefix ++ apiID ++ apiBaseURLListSuffix
      let w := Println w ("Base URL CRUD: " ++ baseURLCRUD)
      let w := Println w ("Base URL List: " ++ baseURLList)
      .ok { w with apiBaseURLCRUD := baseURLCRUD, apiBaseURLList := baseURLList }

/-- The function `main`, its loop run for at most `fuel` passes: a panic of
`createBaseUrls` ends the process; otherwise the result is that of
`commandLoop`. -/
def main (gw : Gateway) (env : Env) (fuel : Nat) (w : World) :
    Except (Panic × World) (Option World) :=
  match createBaseUrls gw w with
  | .error p => .error p
  | .ok w => .ok (commandLoop env fuel w)

/-! ## Reading a query string back -/

/-- The query string of a URL as `net/url` takes it: the fragment, from the
first "#" on, is cut off, and the query is what follows the first "?" of the
rest. -/
def queryString (url : String) : List Char :=
  (((url.data.takeWhile (fun c => c != '#'))).dropWhile (fun c => c != '?')).drop 1

/-- The pieces of a text between occurrences of a separator. -/
def splitOn (sep : Char) : List Char → List (List Char)
  | [] => [[]]
  | c :: cs =>
    if c = sep then [] :: splitOn sep cs
    else
      match splitOn sep cs with
      | [] => [[c]]
      | p :: ps => (c :: p) :: ps

/-- A parameter cut into key and value at its first "=". -/
def keyValue (p : List Char) : String × String :=
  (⟨p.takeWhile (fun c => c != '=')⟩, ⟨(p.dropWhile (fun c => c != '=')).drop 1⟩)

/-- The parameters of a URL as the round-trip property reads them: the query
string split on "&", each piece cut at its first "=". -/
def queryParameters (url : String) : List (String × String) :=
  (splitOn '&' (queryString url)).map keyValue

/-! ## A concrete environment for the examples -/

/-- The bytes of an ASCII text. -/
def asciiBytes (s : String) : Bytes :=
  s.data.map (fun c => c.toNat.toUInt8)

/-- The file of the round-trip example. -/
def exampleFile : Bytes :=
  asciiBytes
    "\x7b\"date\":\"2024-01-01\",\"application\":\"svcA\",\"passed\":5,\"failed\":1,\"total\":6\x7d"

/-- The `Entry` that `exampleFile` decodes to. -/
def exampleEntry : Entry :=
  { Date := "2024-01-01", Application := "svcA", Passed := 5, Failed := 1, Total := 6 }

/-- A file whose date ends in the JSON escape for a line feed. -/
def lineFeedFile : Bytes :=
  asciiBytes "\x7b\"date\":\"2024-01-01\\n\",\"application\":\"svcA\"\x7d"

/-- The `Entry` that `lineFeedFile` decodes to: the date ends in a line feed. -/
def lineFeedEntry : Entry :=
  { Date := "2024-01-01\n", Application := "svcA", Passed := 0, Failed := 0, Total := 0 }

/-- A file whose date holds an ampersand. -/
def ampersandFile : Bytes :=
  asciiBytes "\x7b\"date\":\"Q1&Q2\",\"application\":\"svcA\"\x7d"

/-- The `Entry` that `ampersandFile` decodes to. -/
def ampersandEntry : Entry :=
  { Date := "Q1&Q2", Application := "svcA", Passed := 0, Failed := 0, Total := 0 }

/-- A file whose date holds a number sign. -/
def numberSignFile : Bytes :=
  asciiBytes "\x7b\"date\":\"2024#01\",\"application\":\"svcA\"\x7d"

/-- The `Entry` that `numberSignFile` decodes to. -/
def numberSignEntry : Entry :=
  { Date := "2024#01", Application := "svcA", Passed := 0, Failed := 0, Total := 0 }

/-- A file without the `application` member. -/
def noApplicationFile : Bytes :=
  asciiBytes "\x7b\"date\":\"2024-01-01\",\"passed\":5\x7d"

/-- The `Entry` that `noApplicationFile` decodes to. -/
def noApplicationEntry : Entry :=
  { Date := "2024-01-01", Application := "", Passed := 5, Failed := 0, Total := 0 }

/-- The check `net/url` makes first when `http.NewRequest` parses its URL: the
part before any "#" may hold no ASCII control character (below 0x20, or 0x7f).
The error is the one `net/url` raises, without the `parse` wrapper around it. -/
def refuseControl (_method url : String) : Option String :=
  if (url.data.takeWhile (fun c => c != '#')).any (fun c => c.toNat < 0x20 || c.toNat == 0x7f)
  then some "net/url: invalid control character in URL"
  else none

/-- An environment with five files; every request that is sent is answered
with an empty body. -/
def exampleEnv : Env where
  ReadFile := fun filepath =>
    if filepath = "entry.json" then .ok exampleFile
    else if filepath = "linefeed.json" then .ok lineFeedFile
    else if filepath = "ampersand.json" then .ok ampersandFile
    else if filepath = "noapp.json" then .ok noApplicationFile
    else if filepath = "numbersign.json" then .ok numberSignFile
    else .error ("open " ++ filepath ++ ": no such file or directory")
  Unmarshal := fun b =>
    if b = exampleFile then .ok exampleEntry
    else if b = lineFeedFile then .ok lineFeedEntry
    else if b = ampersandFile then .ok ampersandEntry
    else if b = noApplicationFile then .ok noApplicationEntry
    else if b = numberSignFile then .ok numberSignEntry
    else .error "invalid character"
  NewRequest := refuseControl
  RoundTrip := fun _ => .ok []

/-- A control plane with one API, `abc123`, with one resource on which GET is
bound, PUT is absent and DELETE fails. -/
def exampleGateway : Gateway where
  NewSession := none
  GetRestApis := ([{ Id := "abc123", Name := "entries" }], none)
  GetResources := fun _ => ([{ Id := "r1", Path := "/entry" }], none)
  GetMethod := fun _ _ method =>
    if method = "GET" then .found
    else if method = "DELETE" then .failed "InternalFailure"
    else .notFound

/-- A control plane whose listing fails: an error and no items. -/
def failingGateway : Gateway where
  NewSession := none
  GetRestApis := ([], some "RequestError: send request failed")
  GetResources := fun _ => ([], none)
  GetMethod := fun _ _ _ => .notFound

/-- The part of the state the diagnostic loops never touch. -/
def untouched (w : World) : List String × String × String :=
  (w.stdin, w.apiBaseURLCRUD, w.apiBaseURLList)

/-- The CRUD base URL of the API `abc123`. -/
def exampleCRUD : String :=
  "http://abc123.execute-api.localhost.localstack.cloud:4566/dev/entry"

/-- The list base URL of the API `abc123`. -/
def exampleList : String :=
  "http://abc123.execute-api.localhost.localstack.cloud:4566/dev/entries"

/-! ## Lemmas on events -/

theorem sent_append (xs ys : List Event) : sent (xs ++ ys) = sent xs ++ sent ys := by
  induction xs with
  | nil => rfl
  | cons e es ih => cases e <;> simp [sent, ih]

theorem sent_print (s : String) : sent [Event.print s] = [] := rfl

theorem sent_printResponse (b : Bytes) : sent [Event.printResponse b] = [] := rfl

theorem sent_send (r : Request) : sent [Event.send r] = [r] := rfl

/-! ## The list handler -/

theorem httpGet_accept (env : Env) (w : World) (url : String)
    (h : env.NewRequest "GET" url = none) :
    httpGet env w url
      = (env.RoundTrip ⟨"GET", url, none, []⟩,
          { w with out := w.out ++ [Event.send ⟨"GET", url, none, []⟩] }) := by
  simp [httpGet, NewRequest, clientDo, h]

theorem httpGet_refuse (env : Env) (w : World) (url err : String)
    (h : env.NewRequest "GET" url = some err) :
    httpGet env w url = (.error err, w) := by
  simp [httpGet, NewRequest, h]

theorem httpGet_out (env : Env) (w w1 : World) (url : String) (r : Except String Bytes)
    (h : httpGet env w url = (r, w1)) : w.out <+: w1.out := by
  cases hn : env.NewRequest "GET" url with
  | none =>
    rw [httpGet_accept env w url hn] at h
    simp only [Prod.mk.injEq] at h
    rw [← h.2]
    simp
  | some err =>
    rw [httpGet_refuse env w url err hn] at h
    simp only [Prod.mk.injEq] at h
    rw [← h.2]

/-- What `handleList` does once the URL is known to be `url`: with the request
built, one GET goes to the HTTP client; with the URL refused, the error is
printed after the two prompts and nothing is sent. -/
theorem handleList_with_url (env : Env) (date application : String) (rest : List String)
    (out : List Event) (C B url : String)
    (hurl : (if ((if (application != "") = true then
            (if (date != "") = true then ([] : List String) ++ ["date=" ++ date] else []) ++
              ["application=" ++ application]
          else if (date != "") = true then ([] : List String) ++ ["date=" ++ date]
            else []).length > 0) then
          B ++ ("?" ++ Join (if (application != "") = true then
            (if (date != "") = true then ([] : List String) ++ ["date=" ++ date] else []) ++
              ["application=" ++ application]
          else if (date != "") = true then ([] : List String) ++ ["date=" ++ date]
            else []) "&")
        else B) = url) :
    (env.NewRequest "GET" url = none →
      sent (handleList env ⟨date :: application :: rest, out, C, B⟩).out
        = sent out ++ [⟨"GET", url, none, []⟩]) ∧
    (∀ err : String, env.NewRequest "GET" url = some err →
      handleList env ⟨date :: application :: rest, out, C, B⟩
        = ⟨rest, out ++ [Event.print "Enter date (or leave blank):\n",
            Event.print "Enter application (or leave blank):\n",
            Event.print ("Error sending GET request: " ++ err ++ "\n")], C, B⟩ ∧
      sent (handleList env ⟨date :: application :: rest, out, C, B⟩).out = sent out) := by
  constructor
  · intro hn
    simp only [handleList, Println, Print, Scanln, hurl, httpGet_accept env _ url hn]
    cases env.RoundTrip ⟨"GET", url, none, []⟩ <;>
      simp [Println, Print, printResponse, sent_append, sent]
  · intro err hn
    have hL : handleList env ⟨date :: application :: rest, out, C, B⟩
        = ⟨rest, out ++ [Event.print "Enter date (or leave blank):\n",
            Event.print "Enter application (or leave blank):\n",
            Event.print ("Error sending GET request: " ++ err ++ "\n")], C, B⟩ := by
      simp only [handleList, Println, Print, Scanln, hurl, httpGet_refuse env _ url err hn]
      simp
    refine ⟨hL, ?_⟩
    rw [hL]; simp [sent_append, sent]

/-- C1 (as amended): for every list base URL `B` and every pair of inputs,
`handleList` builds the URL `B` when both inputs are empty, `B?date=<date>`
when only the date is non-empty, `B?application=<application>` when only the
application is non-empty and `B?date=<date>&application=<application>` when
both are.  If `http.NewRequest`, which `http.Get` calls, builds the request,
exactly one request reaches the HTTP client: a GET without body to that URL.
If it refuses the URL, `handleList` prints "Error sending GET request: " with
the error after the two prompts and nothing reaches the HTTP client. -/
theorem handleList_request_url (env : Env) (date application : String)
    (rest : List String) (out : List Event) (C B : String) :
    ∃ url : String,
      (date = "" → application = "" → url = B) ∧
      (date ≠ "" → application = "" → url = B ++ "?date=" ++ date) ∧
      (date = "" → application ≠ "" → url = B ++ "?application=" ++ application) ∧
      (date ≠ "" → application ≠ "" →
        url = B ++ "?date=" ++ date ++ "&application=" ++ application) ∧
      (env.NewRequest "GET" url = none →
        sent (handleList env ⟨date :: application :: rest, out, C, B⟩).out
          = sent out ++ [⟨"GET", url, none, []⟩]) ∧
      (∀ err : String, env.NewRequest "GET" url = some err →
        handleList env ⟨date :: application :: rest, out, C, B⟩
          = ⟨rest, out ++ [Event.print "Enter date (or leave blank):\n",
              Event.print "Enter application (or leave blank):\n",
              Event.print ("Error sending GET request: " ++ err ++ "\n")], C, B⟩ ∧
        sent (handleList env ⟨date :: application :: rest, out, C, B⟩).out = sent out) := by
  by_cases hd : date = "" <;> by_cases ha : application = ""
  · have h := handleList_with_url env date application rest out C B B
      (by simp [hd, ha])
    exact ⟨B, by simp [hd, ha], by simp [hd, ha], by simp [hd, ha], by simp [hd, ha], h.1, h.2⟩
  · have hu : B ++ ("?" ++ ("application=" ++ application))
        = B ++ "?application=" ++ application := by apply String.ext; simp
    have h := handleList_with_url env date application rest out C B
      (B ++ "?application=" ++ application) (by simp [hd, ha, Join, hu])
    exact ⟨_, by simp [hd, ha], by simp [hd, ha], by simp [hd, ha], by simp [hd, ha],
      h.1, h.2⟩
  · have hu : B ++ ("?" ++ ("date=" ++ date)) = B ++ "?date=" ++ date := by
      apply String.ext; simp
    have h := handleList_with_url env date application rest out C B
      (B ++ "?date=" ++ date) (by simp [hd, ha, Join, hu])
    exact ⟨_, by simp [hd, ha], by simp [hd, ha], by simp [hd, ha], by simp [hd, ha],
      h.1, h.2⟩
  · have hu : B ++ ("?" ++ ("date=" ++ date ++ "&" ++ ("application=" ++ application)))
        = B ++ "?date=" ++ date ++ "&application=" ++ application := by
      apply String.ext; simp
    have h := handleList_with_url env date application rest out C B
      (B ++ "?date=" ++ date ++ "&application=" ++ application)
      (by simp [hd, ha, Join, hu])
    exact ⟨_, by simp [hd, ha], by simp [hd, ha], by simp [hd, ha], by simp [hd, ha],
      h.1, h.2⟩

/-- C1, the claim as stated fails: with the date `ESC [ A` (what the arrow-up
key puts on the input) and the application `svcA`, `http.NewRequest` refuses
the URL that `handleList` builds, and `handleList` requests nothing: no request
reaches the HTTP client. -/
theorem handleList_escape_sends_nothing :
    exampleEnv.NewRequest "GET"
        (exampleList ++ "?date=" ++ "\x1b[A" ++ "&application=" ++ "svcA")
      = some "net/url: invalid control character in URL" ∧
    sent (handleList exampleEnv ⟨["\x1b[A", "svcA"], [], exampleCRUD, exampleList⟩).out
      = [] := by
  decide

/-! ## The delete and find handlers: missing parameters -/

/-- Both handlers stop at the check of the trimmed inputs when one is empty. -/
theorem delete_find_missing_parameter_aux (env : Env) (date application : String)
    (rest : List String) (out : List Event) (C B : String)
    (h : TrimSpace date = "" ∨ TrimSpace application = "") :
    handleDelete env ⟨date :: application :: rest, out, C, B⟩
      = ⟨rest, out ++ [Event.print "Enter date:\n", Event.print "Enter application:\n",
          Event.print "Error: Both date or application must be provided.\n"], C, B⟩ ∧
    handleFind env ⟨date :: application :: rest, out, C, B⟩
      = ⟨rest, out ++ [Event.print "Enter date:\n", Event.print "Enter application:\n",
          Event.print "Error: Both date or application must be provided.\n"], C, B⟩ := by
  have hc : (TrimSpace date == "" || TrimSpace application == "") = true := by
    rcases h with h | h <;> simp [h]
  constructor
  · simp only [handleDelete, Println, Print, Scanln, hc, if_true]
    simp
  · simp only [handleFind, Println, Print, Scanln, hc, if_true]
    simp

/-- C2: whenever the trimmed date or the trimmed application is empty, the
delete handler and the find handler print the two prompts and then the message
"Error: Both date or application must be provided." (which contains
"must be provided"), and nothing else happens: no request is built and none
reaches the HTTP client. -/
theorem delete_find_missing_parameter (env : Env) (date application : String)
    (rest : List String) (out : List Event) (C B : String)
    (h : TrimSpace date = "" ∨ TrimSpace application = "") :
    handleDelete env ⟨date :: application :: rest, out, C, B⟩
      = ⟨rest, out ++ [Event.print "Enter date:\n", Event.print "Enter application:\n",
          Event.print "Error: Both date or application must be provided.\n"], C, B⟩ ∧
    handleFind env ⟨date :: application :: rest, out, C, B⟩
      = ⟨rest, out ++ [Event.print "Enter date:\n", Event.print "Enter application:\n",
          Event.print "Error: Both date or application must be provided.\n"], C, B⟩ ∧
    Contains "Error: Both date or application must be provided.\n" "must be provided" = true ∧
    sent (handleDelete env ⟨date :: application :: rest, out, C, B⟩).out = sent out ∧
    sent (handleFind env ⟨date :: application :: rest, out, C, B⟩).out = sent out := by
  obtain ⟨hD, hF⟩ := delete_find_missing_parameter_aux env date application rest out C B h
  refine ⟨hD, hF, by decide, ?_, ?_⟩
  · rw [hD]; simp [sent_append, sent]
  · rw [hF]; simp [sent_append, sent]

/-! ## The update handler -/

/-- C3: when the file is read and decodes as an `Entry` whose date or whose
application is empty, the update handler prints the prompt and then
"Error: Missing mandatory fields (date and application) in the JSON file."
and nothing else happens: no request is built and none reaches the HTTP
client. -/
theorem handlePut_missing_mandatory_fields (env : Env) (filepath : String)
    (rest : List String) (out : List Event) (C B : String) (fileContent : Bytes)
    (entry : Entry) (hread : env.ReadFile filepath = .ok fileContent)
    (hjson : env.Unmarshal fileContent = .ok entry)
    (h : entry.Date = "" ∨ entry.Application = "") :
    handlePut env ⟨filepath :: rest, out, C, B⟩
      = ⟨rest, out ++ [Event.print "Enter the path to the file for PUT:\n",
          Event.print
            "Error: Missing mandatory fields (date and application) in the JSON file.\n"],
          C, B⟩ ∧
    Contains "Error: Missing mandatory fields (date and application) in the JSON file.\n"
      "Missing mandatory fields" = true ∧
    sent (handlePut env ⟨filepath :: rest, out, C, B⟩).out = sent out := by
  have hc : (entry.Date == "" || entry.Application == "") = true := by
    rcases h with h | h <;> simp [h]
  have hP : handlePut env ⟨filepath :: rest, out, C, B⟩
      = ⟨rest, out ++ [Event.print "Enter the path to the file for PUT:\n",
          Event.print
            "Error: Missing mandatory fields (date and application) in the JSON file.\n"],
          C, B⟩ := by
    simp only [handlePut, readFile, Println, Print, Scanln, hread, hjson, hc, if_true]
    simp
  refine ⟨hP, by decide, ?_⟩
  rw [hP]; simp [sent_append, sent]

/-! ## The create handler -/

/-- C10: when the file is read, with bytes `b`, the create handler hands exactly
one request to the HTTP client: a POST to the CRUD base URL itself, with body
`b` and content type "application/json".  When reading fails the handler prints
the error after the prompt, hands nothing to the HTTP client, and the command
loop goes on. -/
theorem handlePost_request (env : Env) (filepath : String) (rest : List String)
    (out : List Event) (C B : String) :
    (∀ b : Bytes, env.ReadFile filepath = .ok b →
      sent (handlePost env ⟨filepath :: rest, out, C, B⟩).out
        = sent out ++ [⟨"POST", C, some b, [("Content-Type", "application/json")]⟩]) ∧
    (∀ err : String, env.ReadFile filepath = .error err →
      handlePost env ⟨filepath :: rest, out, C, B⟩
        = ⟨rest, out ++ [Event.print "Enter the path to the file for POST:\n",
            Event.print ("Error reading file: " ++ err ++ "\n")], C, B⟩ ∧
      sent (handlePost env ⟨filepath :: rest, out, C, B⟩).out = sent out ∧
      loopBody env ⟨"post" :: filepath :: rest, out, C, B⟩
        = (⟨rest, out ++ [Event.print "Available commands: post, put, delete, find, list, quit\n",
            Event.print "Enter command: ",
            Event.print "Enter the path to the file for POST:\n",
            Event.print ("Error reading file: " ++ err ++ "\n")], C, B⟩, false)) := by
  constructor
  · intro b hread
    cases hr : env.RoundTrip ⟨"POST", C, some b, [("Content-Type", "application/json")]⟩ <;>
      simp [handlePost, readFile, Println, Print, Scanln, httpPost, clientDo, printResponse,
        hread, hr, sent_append, sent]
  · intro err hread
    have hP : ∀ o : List Event, handlePost env ⟨filepath :: rest, o, C, B⟩
        = ⟨rest, o ++ [Event.print "Enter the path to the file for POST:\n",
            Event.print ("Error reading file: " ++ err ++ "\n")], C, B⟩ := by
      intro o
      simp [handlePost, readFile, Println, Print, Scanln, hread]
    refine ⟨hP out, ?_, ?_⟩
    · rw [hP]; simp [sent_append, sent]
    · have hq : ("post" == "quit") = false := by decide
      simp [loopBody, Println, Print, Scanln, hP, hq]

end Localstack

namespace Localstack
example : Contains "Error: Both date or application must be provided.\n" "must be provided" = true := by decide
example : TrimSpace "  a b \n" = "a b" := by decide
example : Join ["a","b","c"] "&" = "a&b&c" := by decide
example : sprintfQuery "x" "d" "a" = "x?date=d&application=a" := by decide
/-- C4 (as amended): when the file is read, with bytes `b`, and decodes as an
`Entry` with non-empty date `d` and application `a`, the update handler builds
the URL `C?date=<d>&application=<a>` with `d` and `a` inserted as they are.  If
`http.NewRequest` builds the request, exactly one request reaches the HTTP
client: a PUT to that URL with body `b` and content type "application/json".  If
`http.NewRequest` refuses the URL, the handler prints "Error creating PUT
request" with the error and nothing reaches the HTTP client. -/
theorem handlePut_request (env : Env) (filepath : String) (rest : List String)
    (out : List Event) (C B : String) (fileContent : Bytes) (entry : Entry)
    (hread : env.ReadFile filepath = .ok fileContent)
    (hjson : env.Unmarshal fileContent = .ok entry)
    (hd : entry.Date ≠ "") (ha : entry.Application ≠ "") :
    (env.NewRequest "PUT"
        (C ++ "?date=" ++ entry.Date ++ "&application=" ++ entry.Application) = none →
      sent (handlePut env ⟨filepath :: rest, out, C, B⟩).out
        = sent out ++
          [⟨"PUT", C ++ "?date=" ++ entry.Date ++ "&application=" ++ entry.Application,
            some fileContent, [("Content-Type", "application/json")]⟩]) ∧
    (∀ err : String,
      env.NewRequest "PUT"
        (C ++ "?date=" ++ entry.Date ++ "&application=" ++ entry.Application) = some err →
      handlePut env ⟨filepath :: rest, out, C, B⟩
        = ⟨rest, out ++ [Event.print "Enter the path to the file for PUT:\n",
            Event.print ("Error creating PUT request: " ++ err ++ "\n")], C, B⟩ ∧
      sent (handlePut env ⟨filepath :: rest, out, C, B⟩).out = sent out) := by
  have hc : (entry.Date == "" || entry.Application == "") = false := by simp [hd, ha]
  constructor
  · intro hnew
    cases hr : env.RoundTrip
        ⟨"PUT", C ++ "?date=" ++ entry.Date ++ "&application=" ++ entry.Application,
          some fileContent, [("Content-Type", "application/json")]⟩ <;>
      simp [handlePut, readFile, Println, Print, Scanln, NewRequest, headerSet, clientDo,
        printResponse, sprintfQuery, hread, hjson, hc, hnew, hr, sent_append, sent]
  · intro err hnew
    have hP : handlePut env ⟨filepath :: rest, out, C, B⟩
        = ⟨rest, out ++ [Event.print "Enter the path to the file for PUT:\n",
            Event.print ("Error creating PUT request: " ++ err ++ "\n")], C, B⟩ := by
      simp [handlePut, readFile, Println, Print, Scanln, NewRequest, sprintfQuery, hread,
        hjson, hc, hnew]
    refine ⟨hP, ?_⟩
    rw [hP]; simp [sent_append, sent]

/-- C4, the claim as stated fails: the file `lineFeedFile` is read and decodes
to an `Entry` with non-empty date and application, yet the update handler hands
no request to the HTTP client, because `http.NewRequest` refuses the URL built
from a date that holds a line feed. -/
theorem handlePut_line_feed_sends_nothing :
    exampleEnv.ReadFile "linefeed.json" = .ok lineFeedFile ∧
    exampleEnv.Unmarshal lineFeedFile = .ok lineFeedEntry ∧
    lineFeedEntry.Date ≠ "" ∧ lineFeedEntry.Application ≠ "" ∧
    exampleEnv.NewRequest "PUT"
        (exampleCRUD ++ "?date=" ++ lineFeedEntry.Date ++ "&application=" ++
          lineFeedEntry.Application)
      = some "net/url: invalid control character in URL" ∧
    sent (handlePut exampleEnv ⟨["linefeed.json"], [], exampleCRUD, exampleList⟩).out = [] := by
  decide

/-! ## Delete and find: one contract -/

/-- C9 (as amended): the find handler and the delete handler reject the same
inputs, namely those whose trimmed date or trimmed application is empty.  On
every other input both build the URL `C?date=<trimmed date>&application=<trimmed
application>` and hand it to `http.NewRequest` (the find handler through
`http.Get`).  If the request is built, exactly one request reaches the HTTP
client: a GET without body from the find handler, a DELETE without body from
the delete handler, both to that URL.  If the URL is refused, the find handler
prints "Error sending GET request: " and the delete handler "Error creating
DELETE request: " with the error after the two prompts, and nothing reaches the
HTTP client. -/
theorem delete_find_same_contract (env : Env) (date application : String)
    (rest : List String) (out : List Event) (C B : String) :
    (handleDelete env ⟨date :: application :: rest, out, C, B⟩
        = ⟨rest, out ++ [Event.print "Enter date:\n", Event.print "Enter application:\n",
            Event.print "Error: Both date or application must be provided.\n"], C, B⟩
      ↔ (TrimSpace date = "" ∨ TrimSpace application = "")) ∧
    (handleFind env ⟨date :: application :: rest, out, C, B⟩
        = ⟨rest, out ++ [Event.print "Enter date:\n", Event.print "Enter application:\n",
            Event.print "Error: Both date or application must be provided.\n"], C, B⟩
      ↔ (TrimSpace date = "" ∨ TrimSpace application = "")) ∧
    (TrimSpace date ≠ "" → TrimSpace application ≠ "" →
      (env.NewRequest "GET"
          (C ++ "?date=" ++ TrimSpace date ++ "&application=" ++ TrimSpace application) = none →
        sent (handleFind env ⟨date :: application :: rest, out, C, B⟩).out
          = sent out ++
            [⟨"GET",
              C ++ "?date=" ++ TrimSpace date ++ "&application=" ++ TrimSpace application,
              none, []⟩]) ∧
      (∀ err : String,
        env.NewRequest "GET"
          (C ++ "?date=" ++ TrimSpace date ++ "&application=" ++ TrimSpace application)
            = some err →
        handleFind env ⟨date :: application :: rest, out, C, B⟩
          = ⟨rest, out ++ [Event.print "Enter date:\n", Event.print "Enter application:\n",
              Event.print ("Error sending GET request: " ++ err ++ "\n")], C, B⟩ ∧
        sent (handleFind env ⟨date :: application :: rest, out, C, B⟩).out = sent out) ∧
      (env.NewRequest "DELETE"
          (C ++ "?date=" ++ TrimSpace date ++ "&application=" ++ TrimSpace application) = none →
        sent (handleDelete env ⟨date :: application :: rest, out, C, B⟩).out
          = sent out ++
            [⟨"DELETE",
              C ++ "?date=" ++ TrimSpace date ++ "&application=" ++ TrimSpace application,
              none, []⟩]) ∧
      (∀ err : String,
        env.NewRequest "DELETE"
          (C ++ "?date=" ++ TrimSpace date ++ "&application=" ++ TrimSpace application)
            = some err →
        handleDelete env ⟨date :: application :: rest, out, C, B⟩
          = ⟨rest, out ++ [Event.print "Enter date:\n", Event.print "Enter application:\n",
              Event.print ("Error creating DELETE request: " ++ err ++ "\n")], C, B⟩ ∧
        sent (handleDelete env ⟨date :: application :: rest, out, C, B⟩).out = sent out)) := by
  by_cases h : TrimSpace date = "" ∨ TrimSpace application = ""
  · have h2 := delete_find_missing_parameter_aux env date application rest out C B h
    refine ⟨⟨fun _ => h, fun _ => h2.1⟩, ⟨fun _ => h, fun _ => h2.2⟩, ?_⟩
    intro hd ha
    rcases h with h | h
    · exact absurd h hd
    · exact absurd h ha
  · have hd : TrimSpace date ≠ "" := fun e => h (Or.inl e)
    have ha : TrimSpace application ≠ "" := fun e => h (Or.inr e)
    have hc : (TrimSpace date == "" || TrimSpace application == "") = false := by simp [hd, ha]
    have hFok : env.NewRequest "GET"
          (C ++ "?date=" ++ TrimSpace date ++ "&application=" ++ TrimSpace application) = none →
        sent (handleFind env ⟨date :: application :: rest, out, C, B⟩).out
          = sent out ++
            [⟨"GET",
              C ++ "?date=" ++ TrimSpace date ++ "&application=" ++ TrimSpace application,
              none, []⟩] := by
      intro hnew
      simp only [handleFind, Println, Print, Scanln, sprintfQuery, hc, Bool.false_eq_true,
        if_false, httpGet_accept env _ _ hnew]
      cases env.RoundTrip
          ⟨"GET", C ++ "?date=" ++ TrimSpace date ++ "&application=" ++ TrimSpace application,
            none, []⟩ <;>
        simp [Println, Print, printResponse, sent_append, sent]
    have hFerr : ∀ err : String,
        env.NewRequest "GET"
          (C ++ "?date=" ++ TrimSpace date ++ "&application=" ++ TrimSpace application)
            = some err →
        handleFind env ⟨date :: application :: rest, out, C, B⟩
          = ⟨rest, out ++ [Event.print "Enter date:\n", Event.print "Enter application:\n",
              Event.print ("Error sending GET request: " ++ err ++ "\n")], C, B⟩ := by
      intro err hnew
      simp only [handleFind, Println, Print, Scanln, sprintfQuery, hc, Bool.false_eq_true,
        if_false, httpGet_refuse env _ _ err hnew]
      simp
    have hDok : env.NewRequest "DELETE"
          (C ++ "?date=" ++ TrimSpace date ++ "&application=" ++ TrimSpace application) = none →
        sent (handleDelete env ⟨date :: application :: rest, out, C, B⟩).out
          = sent out ++
            [⟨"DELETE",
              C ++ "?date=" ++ TrimSpace date ++ "&application=" ++ TrimSpace application,
              none, []⟩] := by
      intro hnew
      cases hr : env.RoundTrip
          ⟨"DELETE", C ++ "?date=" ++ TrimSpace date ++ "&application=" ++ TrimSpace application,
            none, []⟩ <;>
        simp [handleDelete, Println, Print, Scanln, NewRequest, clientDo, printResponse,
          sprintfQuery, hc, hnew, hr, sent_append, sent]
    have hDerr : ∀ err : String,
        env.NewRequest "DELETE"
          (C ++ "?date=" ++ TrimSpace date ++ "&application=" ++ TrimSpace application)
            = some err →
        handleDelete env ⟨date :: application :: rest, out, C, B⟩
          = ⟨rest, out ++ [Event.print "Enter date:\n", Event.print "Enter application:\n",
              Event.print ("Error creating DELETE request: " ++ err ++ "\n")], C, B⟩ := by
      intro err hnew
      simp [handleDelete, Println, Print, Scanln, NewRequest, sprintfQuery, hc, hnew]
    have hne1 : ∀ err : String,
        "Error sending GET request: " ++ err ++ "\n"
          ≠ "Error: Both date or application must be provided.\n" := by
      intro err he
      have hdata := congrArg String.data he
      simp at hdata
    have hne2 : ∀ err : String,
        "Error creating DELETE request: " ++ err ++ "\n"
          ≠ "Error: Both date or application must be provided.\n" := by
      intro err he
      have hdata := congrArg String.data he
      simp at hdata
    refine ⟨⟨fun hrej => ?_, fun h' => absurd h' h⟩, ⟨fun hrej => ?_, fun h' => absurd h' h⟩,
      fun _ _ => ⟨hFok, fun err hn => ⟨hFerr err hn, ?_⟩, hDok,
        fun err hn => ⟨hDerr err hn, ?_⟩⟩⟩
    · exfalso
      cases hn : env.NewRequest "DELETE"
          (C ++ "?date=" ++ TrimSpace date ++ "&application=" ++ TrimSpace application) with
      | none =>
        have hs := congrArg (fun w => sent w.out) hrej
        simp only [sent_append, sent, List.append_nil] at hs
        rw [hDok hn] at hs; simp at hs
      | some err =>
        rw [hDerr err hn] at hrej
        have ho := congrArg (fun w => w.out) hrej
        simp at ho
        exact hne2 err ho
    · exfalso
      cases hn : env.NewRequest "GET"
          (C ++ "?date=" ++ TrimSpace date ++ "&application=" ++ TrimSpace application) with
      | none =>
        have hs := congrArg (fun w => sent w.out) hrej
        simp only [sent_append, sent, List.append_nil] at hs
        rw [hFok hn] at hs; simp at hs
      | some err =>
        rw [hFerr err hn] at hrej
        have ho := congrArg (fun w => w.out) hrej
        simp at ho
        exact hne1 err ho
    · rw [hFerr err hn]; simp [sent_append, sent]
    · rw [hDerr err hn]; simp [sent_append, sent]

/-- C9, the claim as stated fails: with the date `ESC [ A` (what the arrow-up
key puts on the input) and the application `svcA` both handlers accept the
input, since neither trimmed value is empty, yet neither sends a request,
because `http.NewRequest` refuses the URL: the delete handler stops at "Error
creating DELETE request", the find handler at "Error sending GET request". -/
theorem handleDelete_escape_sends_nothing :
    TrimSpace "\x1b[A" ≠ "" ∧ TrimSpace "svcA" ≠ "" ∧
    exampleEnv.NewRequest "DELETE"
        (exampleCRUD ++ "?date=" ++ TrimSpace "\x1b[A" ++ "&application=" ++ TrimSpace "svcA")
      = some "net/url: invalid control character in URL" ∧
    sent (handleDelete exampleEnv ⟨["\x1b[A", "svcA"], [], exampleCRUD, exampleList⟩).out
      = [] ∧
    sent (handleFind exampleEnv ⟨["\x1b[A", "svcA"], [], exampleCRUD, exampleList⟩).out
      = [] := by
  decide

/-! ## The round trip of the update handler -/

theorem takeWhile_bne_of_not_mem (c : Char) (xs : List Char) (h : c ∉ xs) :
    xs.takeWhile (fun x => x != c) = xs := by
  induction xs with
  | nil => rfl
  | cons x xs ih =>
    have hx : x ≠ c := fun e => h (by simp [e])
    have hxs : c ∉ xs := fun m => h (List.mem_cons_of_mem _ m)
    have hb : (x != c) = true := by simp [hx]
    rw [List.takeWhile_cons, hb]
    simp [ih hxs]

theorem dropWhile_bne_append (c : Char) (xs ys : List Char) (h : c ∉ xs) :
    (xs ++ c :: ys).dropWhile (fun x => x != c) = c :: ys := by
  induction xs with
  | nil => simp [List.dropWhile]
  | cons x xs ih =>
    have hx : x ≠ c := fun e => h (by simp [e])
    have hxs : c ∉ xs := fun m => h (List.mem_cons_of_mem _ m)
    have hb : (x != c) = true := by simp [hx]
    rw [List.cons_append, List.dropWhile_cons, hb]
    simpa using ih hxs

theorem splitOn_append_sep (sep : Char) (xs ys : List Char) (h : sep ∉ xs) :
    splitOn sep (xs ++ sep :: ys) = xs :: splitOn sep ys := by
  induction xs with
  | nil => simp [splitOn]
  | cons x xs ih =>
    have hx : x ≠ sep := fun e => h (by simp [e])
    have hxs : sep ∉ xs := fun m => h (List.mem_cons_of_mem _ m)
    simp [splitOn, hx, ih hxs]

theorem splitOn_of_not_mem (sep : Char) (xs : List Char) (h : sep ∉ xs) :
    splitOn sep xs = [xs] := by
  induction xs with
  | nil => simp [splitOn]
  | cons x xs ih =>
    have hx : x ≠ sep := fun e => h (by simp [e])
    have hxs : sep ∉ xs := fun m => h (List.mem_cons_of_mem _ m)
    simp [splitOn, hx, ih hxs]

theorem queryParameters_sprintfQuery (C d a : String) (hC : '?' ∉ C.data)
    (hCf : '#' ∉ C.data) (hd : '&' ∉ d.data) (hdf : '#' ∉ d.data) (ha : '&' ∉ a.data)
    (haf : '#' ∉ a.data) :
    queryParameters (sprintfQuery C d a) = [("date", d), ("application", a)] := by
  have h1 : (sprintfQuery C d a).data
      = C.data ++ '?' :: (("date=".data ++ d.data) ++ '&' :: ("application=".data ++ a.data)) := by
    simp [sprintfQuery]
  have hf : '#' ∉ C.data ++ '?' ::
      (("date=".data ++ d.data) ++ '&' :: ("application=".data ++ a.data)) := by
    simp [hCf, hdf, haf]
  have hm1 : '&' ∉ "date=".data ++ d.data := by
    simp [hd]
  have hm2 : '&' ∉ "application=".data ++ a.data := by
    simp [ha]
  unfold queryParameters queryString
  rw [h1, takeWhile_bne_of_not_mem _ _ hf, dropWhile_bne_append _ _ _ hC]
  simp only [List.drop_succ_cons, List.drop_zero]
  rw [splitOn_append_sep _ _ _ hm1, splitOn_of_not_mem _ _ hm2]
  simp [keyValue, List.takeWhile, List.dropWhile]

/-- C5 (as amended): when neither the date nor the application of the decoded
`Entry` holds an "&" or a "#", and the CRUD base URL holds no "?" and no "#",
the query string of the URL that the update handler builds (what follows the
first "?", up to the fragment), split on "&" and cut at the first "=",
consists of exactly the parameters `date` and `application` with the values of
the decoded `Entry`; and when `http.NewRequest` builds the request, the one
request that reaches the HTTP client is the PUT to this URL. -/
theorem handlePut_query_round_trip (env : Env) (filepath : String) (rest : List String)
    (out : List Event) (C B : String) (fileContent : Bytes) (entry : Entry)
    (hread : env.ReadFile filepath = .ok fileContent)
    (hjson : env.Unmarshal fileContent = .ok entry)
    (hd : entry.Date ≠ "") (ha : entry.Application ≠ "")
    (hC : '?' ∉ C.data) (hCf : '#' ∉ C.data)
    (hdate : '&' ∉ entry.Date.data) (hdatef : '#' ∉ entry.Date.data)
    (happ : '&' ∉ entry.Application.data) (happf : '#' ∉ entry.Application.data) :
    queryParameters (sprintfQuery C entry.Date entry.Application)
      = [("date", entry.Date), ("application", entry.Application)] ∧
    (env.NewRequest "PUT" (sprintfQuery C entry.Date entry.Application) = none →
      sent (handlePut env ⟨filepath :: rest, out, C, B⟩).out
        = sent out ++
          [⟨"PUT", sprintfQuery C entry.Date entry.Application, some fileContent,
            [("Content-Type", "application/json")]⟩]) := by
  have hq := queryParameters_sprintfQuery C entry.Date entry.Application hC hCf hdate hdatef
    happ happf
  refine ⟨hq, fun hnew => ?_⟩
  have hc : (entry.Date == "" || entry.Application == "") = false := by simp [hd, ha]
  cases hr : env.RoundTrip
      ⟨"PUT", sprintfQuery C entry.Date entry.Application, some fileContent,
        [("Content-Type", "application/json")]⟩ <;>
    simp [handlePut, readFile, Println, Print, Scanln, NewRequest, headerSet, clientDo,
      printResponse, hread, hjson, hc, hnew, hr, sent_append, sent]

/-- C5, the claim as stated fails.  The file `ampersandFile` decodes to an
`Entry` with date "Q1&Q2" and application "svcA"; the URL of the PUT built from
it reads back as three parameters, `date` with value "Q1", `Q2` and
`application`.  The file `numberSignFile` decodes to the date "2024#01"; the
query of the PUT ends at the "#" and reads back as `date` with value "2024"
alone.  A base URL that holds a "?" or a "#" moves or removes the query of the
PUT built from the file of the round-trip example. -/
theorem handlePut_ampersand_round_trip_fails :
    (exampleEnv.ReadFile "ampersand.json" = .ok ampersandFile ∧
      exampleEnv.Unmarshal ampersandFile = .ok ampersandEntry ∧
      ampersandEntry.Date ≠ "" ∧ ampersandEntry.Application ≠ "" ∧
      sent (handlePut exampleEnv ⟨["ampersand.json"], [], exampleCRUD, exampleList⟩).out
        = [⟨"PUT",
            "http://abc123.execute-api.localhost.localstack.cloud:4566/dev/entry?date=Q1&Q2&application=svcA",
            some ampersandFile, [("Content-Type", "application/json")]⟩] ∧
      queryParameters
          "http://abc123.execute-api.localhost.localstack.cloud:4566/dev/entry?date=Q1&Q2&application=svcA"
        = [("date", "Q1"), ("Q2", ""), ("application", "svcA")] ∧
      queryParameters
          "http://abc123.execute-api.localhost.localstack.cloud:4566/dev/entry?date=Q1&Q2&application=svcA"
        ≠ [("date", ampersandEntry.Date), ("application", ampersandEntry.Application)]) ∧
    (exampleEnv.ReadFile "numbersign.json" = .ok numberSignFile ∧
      exampleEnv.Unmarshal numberSignFile = .ok numberSignEntry ∧
      numberSignEntry.Date ≠ "" ∧ numberSignEntry.Application ≠ "" ∧
      sent (handlePut exampleEnv ⟨["numbersign.json"], [], exampleCRUD, exampleList⟩).out
        = [⟨"PUT",
            "http://abc123.execute-api.localhost.localstack.cloud:4566/dev/entry?date=2024#01&application=svcA",
            some numberSignFile, [("Content-Type", "application/json")]⟩] ∧
      queryParameters
          "http://abc123.execute-api.localhost.localstack.cloud:4566/dev/entry?date=2024#01&application=svcA"
        = [("date", "2024")]) ∧
    (sent (handlePut exampleEnv
          ⟨["entry.json"], [], "http://localhost:4566/dev/entry?stage=dev", exampleList⟩).out
        = [⟨"PUT", "http://localhost:4566/dev/entry?stage=dev?date=2024-01-01&application=svcA",
            some exampleFile, [("Content-Type", "application/json")]⟩] ∧
      queryParameters
          "http://localhost:4566/dev/entry?stage=dev?date=2024-01-01&application=svcA"
        = [("stage", "dev?date=2024-01-01"), ("application", "svcA")]) ∧
    (sent (handlePut exampleEnv
          ⟨["entry.json"], [], "http://localhost:4566/dev/entry#top", exampleList⟩).out
        = [⟨"PUT", "http://localhost:4566/dev/entry#top?date=2024-01-01&application=svcA",
            some exampleFile, [("Content-Type", "application/json")]⟩] ∧
      queryParameters "http://localhost:4566/dev/entry#top?date=2024-01-01&application=svcA"
        = [("", "")]) := by
  decide

/-! ## Endpoint resolution -/

theorem foldl_untouched {α : Type} (f : World → α → World)
    (hf : ∀ w x, untouched (f w x) = untouched w) (xs : List α) (w : World) :
    untouched (xs.foldl f w) = untouched w := by
  induction xs generalizing w with
  | nil => rfl
  | cons x xs ih => rw [List.foldl_cons, ih, hf]

theorem probeMethod_untouched (gw : Gateway) (item : RestApi) (resource : Resource)
    (w : World) (method : String) :
    untouched (probeMethod gw item resource w method) = untouched w := by
  unfold probeMethod
  cases gw.GetMethod item.Id resource.Id method <;> rfl

theorem probeResource_untouched (gw : Gateway) (item : RestApi) (w : World)
    (resource : Resource) : untouched (probeResource gw item w resource) = untouched w := by
  unfold probeResource
  simp only []
  rw [foldl_untouched _ (probeMethod_untouched gw item resource)]
  rfl

theorem describeApi_untouched (gw : Gateway) (w : World) (item : RestApi) :
    untouched (describeApi gw w item) = untouched w := by
  unfold describeApi
  simp only []
  rcases gw.GetResources item.Id with ⟨items, _ | err⟩
  · simp only []
    rw [foldl_untouched _ (probeResource_untouched gw item)]
    rfl
  · rfl

/-- C6: whenever the session is created and the listing of REST APIs is
non-empty, with first identifier `id`, `createBaseUrls` returns, and it has set
the CRUD base URL to
`http://<id>.execute-api.localhost.localstack.cloud:4566/dev/entry` and the
list base URL to the same with `/dev/entries`, whatever `GetResources` and
`GetMethod` answer for any API, resource and method. -/
theorem createBaseUrls_urls (gw : Gateway) (w : World) (first : RestApi)
    (others : List RestApi) (hs : gw.NewSession = none)
    (h : gw.GetRestApis.1 = first :: others) :
    ∃ o : List Event, createBaseUrls gw w
      = .ok ⟨w.stdin, o,
          "http://" ++ first.Id ++ ".execute-api.localhost.localstack.cloud:4566/dev/entry",
          "http://" ++ first.Id ++ ".execute-api.localhost.localstack.cloud:4566/dev/entries"⟩ := by
  show ∃ o : List Event, createBaseUrls gw w
      = .ok ⟨w.stdin, o, apiBaseURLPrefix ++ first.Id ++ apiBaseURLCRUDSuffix,
          apiBaseURLPrefix ++ first.Id ++ apiBaseURLListSuffix⟩
  have hv := foldl_untouched _ (describeApi_untouched gw) (first :: others) w
  rcases hg : gw.GetRestApis with ⟨items, err⟩
  rw [hg] at h
  simp only at h
  subst h
  simp only [untouched, Prod.mk.injEq] at hv
  refine ⟨((first :: others).foldl (describeApi gw) w).out ++
    [Event.print ("Base URL CRUD: " ++ (apiBaseURLPrefix ++ first.Id ++ apiBaseURLCRUDSuffix)
      ++ "\n")] ++
    [Event.print ("Base URL List: " ++ (apiBaseURLPrefix ++ first.Id ++ apiBaseURLListSuffix)
      ++ "\n")], ?_⟩
  simp only [createBaseUrls, hs, hg, Println, Print]
  rw [hv.1]

/-- C6 at the API `abc123`. -/
theorem createBaseUrls_urls_witness :
    ∃ o : List Event, createBaseUrls exampleGateway (initWorld [])
      = .ok ⟨[], o, "http://abc123.execute-api.localhost.localstack.cloud:4566/dev/entry",
          "http://abc123.execute-api.localhost.localstack.cloud:4566/dev/entries"⟩ :=
  createBaseUrls_urls exampleGateway (initWorld []) ⟨"abc123", "entries"⟩ [] rfl rfl

/-- When the session cannot be created nothing is written and the use of the nil
session ends the process, whatever the listing would have been. -/
theorem createBaseUrls_session_failure (gw : Gateway) (w : World) (err : String)
    (hs : gw.NewSession = some err) :
    createBaseUrls gw w = .error (Panic.nilDereference, w) := by
  simp [createBaseUrls, hs]

theorem createBaseUrls_of_nil (err : Option String)
    (resources : String → List Resource × Option String)
    (methods : String → String → String → MethodProbe) (w : World) :
    createBaseUrls ⟨none, ([], err), resources, methods⟩ w
      = .error (Panic.indexOutOfRange 0 0, w) := rfl

/-- C7, what the code does when the listing fails: `createBaseUrls` writes
nothing and then panics on `resp.Items[0]` (index 0 of a slice of length 0);
`main` ends with that panic and never enters the command loop. -/
theorem main_failing_listing_panics (env : Env) (fuel : Nat) (stdin : List String) :
    createBaseUrls failingGateway (initWorld stdin)
      = .error (Panic.indexOutOfRange 0 0, ⟨stdin, [], "", ""⟩) ∧
    main failingGateway env fuel (initWorld stdin)
      = .error (Panic.indexOutOfRange 0 0, ⟨stdin, [], "", ""⟩) := by
  constructor
  · exact createBaseUrls_of_nil _ _ _ _
  · simp only [main]
    rw [show createBaseUrls failingGateway (initWorld stdin)
      = .error (Panic.indexOutOfRange 0 0, ⟨stdin, [], "", ""⟩) from
        createBaseUrls_of_nil _ _ _ _]

/-! ## The command loop -/

theorem handlePost_out (env : Env) (w : World) : w.out <+: (handlePost env w).out := by
  obtain ⟨stdin, out, C, B⟩ := w
  cases stdin <;>
    simp only [handlePost, readFile, Println, Print, Scanln, httpPost, clientDo,
      printResponse] <;>
    (repeat' split) <;> simp_all <;> (rename_i h; rw [← h.2]; simp)

theorem handlePut_out (env : Env) (w : World) : w.out <+: (handlePut env w).out := by
  obtain ⟨stdin, out, C, B⟩ := w
  cases stdin <;>
    simp only [handlePut, readFile, Println, Print, Scanln, NewRequest, headerSet, clientDo,
      printResponse] <;>
    (repeat' split) <;> simp_all <;> (rename_i h; rw [← h.2]; simp)

theorem handleDelete_out (env : Env) (w : World) : w.out <+: (handleDelete env w).out := by
  obtain ⟨stdin, out, C, B⟩ := w
  rcases stdin with _ | ⟨a, _ | ⟨b, rest⟩⟩ <;>
    simp only [handleDelete, Println, Print, Scanln, NewRequest, clientDo, printResponse] <;>
    (repeat' split) <;> simp_all <;> (rename_i h; rw [← h.2]; simp)

/-- The tail of a handler that calls `http.Get` only adds to the output. -/
theorem get_tail_out (env : Env) (w : World) (url : String) (o : List Event)
    (ho : o <+: w.out) :
    o <+: (match httpGet env w url with
      | (.error err, w) => Println w ("Error sending GET request: " ++ err)
      | (.ok body, w) => printResponse w body).out := by
  rcases hg : httpGet env w url with ⟨r, w1⟩
  have h1 := ho.trans (httpGet_out env w w1 url r hg)
  cases r with
  | error err => exact h1.trans (by simp [Println, Print])
  | ok body => exact h1.trans (by simp [printResponse])

theorem handleFind_out (env : Env) (w : World) : w.out <+: (handleFind env w).out := by
  obtain ⟨stdin, out, C, B⟩ := w
  rcases stdin with _ | ⟨a, _ | ⟨b, rest⟩⟩ <;>
    simp only [handleFind, Println, Print, Scanln] <;>
    split <;>
    first
      | exact get_tail_out env _ _ out (by simp)
      | simp

theorem handleList_out (env : Env) (w : World) : w.out <+: (handleList env w).out := by
  obtain ⟨stdin, out, C, B⟩ := w
  rcases stdin with _ | ⟨a, _ | ⟨b, rest⟩⟩ <;>
    simp only [handleList, Println, Print, Scanln] <;>
    exact get_tail_out env _ _ out (by simp)

/-- Every pass of the loop starts by writing the prompt. -/
theorem loopBody_prompt (env : Env) (w : World) :
    w.out ++ [Event.print "Available commands: post, put, delete, find, list, quit\n",
        Event.print "Enter command: "] <+: (loopBody env w).1.out := by
  obtain ⟨stdin, out, C, B⟩ := w
  have key : ∀ (t : String) (rest : List String),
      out ++ [Event.print "Available commands: post, put, delete, find, list, quit\n",
        Event.print "Enter command: "] <+: (loopBody env ⟨t :: rest, out, C, B⟩).1.out ∧
      out ++ [Event.print "Available commands: post, put, delete, find, list, quit\n",
        Event.print "Enter command: "] <+: (loopBody env ⟨[], out, C, B⟩).1.out := by
    intro t rest
    constructor
    · simp only [loopBody, Println, Print, Scanln]
      split_ifs
      · simp
      · have h := handlePost_out env
          ⟨rest, out ++ [Event.print "Available commands: post, put, delete, find, list, quit\n",
          Event.print "Enter command: "], C, B⟩
        simpa using h
      · have h := handlePut_out env
          ⟨rest, out ++ [Event.print "Available commands: post, put, delete, find, list, quit\n",
          Event.print "Enter command: "], C, B⟩
        simpa using h
      · have h := handleDelete_out env
          ⟨rest, out ++ [Event.print "Available commands: post, put, delete, find, list, quit\n",
          Event.print "Enter command: "], C, B⟩
        simpa using h
      · have h := handleFind_out env
          ⟨rest, out ++ [Event.print "Available commands: post, put, delete, find, list, quit\n",
          Event.print "Enter command: "], C, B⟩
        simpa using h
      · have h := handleList_out env
          ⟨rest, out ++ [Event.print "Available commands: post, put, delete, find, list, quit\n",
          Event.print "Enter command: "], C, B⟩
        simpa using h
      · simp
    · simp [loopBody, Println, Print, Scanln]
  cases stdin with
  | nil => exact (key "" []).2
  | cons t rest => exact (key t rest).1

/-- C8: one pass of the command loop on the token `t`.  The loop is left in
this pass exactly when `t` is "quit".  When `t` is neither "quit" nor one of
"post", "put", "delete", "find", "list", the pass writes the prompt and
"Invalid command. Please try again." and nothing else (no handler runs, no
request is sent), the loop goes on with the next pass, and that pass starts by
writing the prompt again. -/
theorem commandLoop_step (env : Env) (t : String) (rest : List String)
    (out : List Event) (C B : String) :
    ((loopBody env ⟨t :: rest, out, C, B⟩).2 = true ↔ t = "quit") ∧
    (t = "quit" → ∀ fuel : Nat,
      commandLoop env (fuel + 1) ⟨t :: rest, out, C, B⟩
        = some ⟨rest, out ++
            [Event.print "Available commands: post, put, delete, find, list, quit\n",
              Event.print "Enter command: ", Event.print "Exiting...\n"], C, B⟩) ∧
    (t ≠ "quit" → ∀ fuel : Nat,
      commandLoop env (fuel + 1) ⟨t :: rest, out, C, B⟩
        = commandLoop env fuel (loopBody env ⟨t :: rest, out, C, B⟩).1) ∧
    (t ∉ ["quit", "post", "put", "delete", "find", "list"] →
      loopBody env ⟨t :: rest, out, C, B⟩
        = (⟨rest, out ++
            [Event.print "Available commands: post, put, delete, find, list, quit\n",
              Event.print "Enter command: ",
              Event.print "Invalid command. Please try again.\n"], C, B⟩, false) ∧
      (out ++
          [Event.print "Available commands: post, put, delete, find, list, quit\n",
            Event.print "Enter command: ",
            Event.print "Invalid command. Please try again.\n"]) ++
          [Event.print "Available commands: post, put, delete, find, list, quit\n",
            Event.print "Enter command: "]
        <+: (loopBody env (loopBody env ⟨t :: rest, out, C, B⟩).1).1.out) := by
  have hflag : (loopBody env ⟨t :: rest, out, C, B⟩).2 = true ↔ t = "quit" := by
    simp only [loopBody, Println, Print, Scanln]
    split_ifs with h1 <;> simp_all
  refine ⟨hflag, ?_, ?_, ?_⟩
  · intro ht fuel
    subst ht
    simp [commandLoop, loopBody, Println, Print, Scanln]
  · intro ht fuel
    have hf : (loopBody env ⟨t :: rest, out, C, B⟩).2 = false := by
      cases hb : (loopBody env ⟨t :: rest, out, C, B⟩).2
      · rfl
      · exact absurd (hflag.mp hb) ht
    rcases hl : loopBody env ⟨t :: rest, out, C, B⟩ with ⟨w1, b⟩
    rw [hl] at hf
    simp only at hf
    subst hf
    simp [commandLoop, hl]
  · intro ht
    simp only [List.mem_cons, List.mem_singleton, List.not_mem_nil, or_false, not_or] at ht
    obtain ⟨h1, h2, h3, h4, h5, h6⟩ := ht
    have hl : loopBody env ⟨t :: rest, out, C, B⟩
        = (⟨rest, out ++
            [Event.print "Available commands: post, put, delete, find, list, quit\n",
              Event.print "Enter command: ",
              Event.print "Invalid command. Please try again.\n"], C, B⟩, false) := by
      simp [loopBody, Println, Print, Scanln, h1, h2, h3, h4, h5, h6]
    refine ⟨hl, ?_⟩
    rw [hl]
    exact loopBody_prompt env
      ⟨rest, out ++ [Event.print "Available commands: post, put, delete, find, list, quit\n",
        Event.print "Enter command: ",
        Event.print "Invalid command. Please try again.\n"], C, B⟩

/-! ## The theorems at concrete inputs -/

/-- C1 (as amended) at the three inputs of the specification: no filter, a date
only, both. -/
theorem handleList_request_url_witness :
    sent (handleList exampleEnv ⟨["", ""], [], exampleCRUD, exampleList⟩).out
      = [⟨"GET", "http://abc123.execute-api.localhost.localstack.cloud:4566/dev/entries",
          none, []⟩] ∧
    sent (handleList exampleEnv ⟨["2024-01-01", ""], [], exampleCRUD, exampleList⟩).out
      = [⟨"GET",
          "http://abc123.execute-api.localhost.localstack.cloud:4566/dev/entries?date=2024-01-01",
          none, []⟩] ∧
    sent (handleList exampleEnv ⟨["2024-01-01", "svcA"], [], exampleCRUD, exampleList⟩).out
      = [⟨"GET",
          "http://abc123.execute-api.localhost.localstack.cloud:4566/dev/entries?date=2024-01-01&application=svcA",
          none, []⟩] := by
  refine ⟨?_, ?_, ?_⟩
  · obtain ⟨url, h, _, _, _, hok, _⟩ :=
      handleList_request_url exampleEnv "" "" [] [] exampleCRUD exampleList
    have hu := h rfl rfl
    subst hu
    rw [hok (by decide)]; decide
  · obtain ⟨url, _, h, _, _, hok, _⟩ :=
      handleList_request_url exampleEnv "2024-01-01" "" [] [] exampleCRUD exampleList
    have hu := h (by decide) rfl
    subst hu
    rw [hok (by decide)]; decide
  · obtain ⟨url, _, _, _, h, hok, _⟩ :=
      handleList_request_url exampleEnv "2024-01-01" "svcA" [] [] exampleCRUD exampleList
    have hu := h (by decide) (by decide)
    subst hu
    rw [hok (by decide)]; decide

/-- C2 at a date of blanks only. -/
theorem delete_find_missing_parameter_witness :
    TrimSpace "  \t" = "" ∧
    handleDelete exampleEnv ⟨["  \t", "svcA"], [], exampleCRUD, exampleList⟩
      = ⟨[], [Event.print "Enter date:\n", Event.print "Enter application:\n",
          Event.print "Error: Both date or application must be provided.\n"],
          exampleCRUD, exampleList⟩ ∧
    handleFind exampleEnv ⟨["  \t", "svcA"], [], exampleCRUD, exampleList⟩
      = ⟨[], [Event.print "Enter date:\n", Event.print "Enter application:\n",
          Event.print "Error: Both date or application must be provided.\n"],
          exampleCRUD, exampleList⟩ :=
  ⟨by decide,
    (delete_find_missing_parameter exampleEnv "  \t" "svcA" [] [] exampleCRUD exampleList
      (Or.inl (by decide))).1,
    (delete_find_missing_parameter exampleEnv "  \t" "svcA" [] [] exampleCRUD exampleList
      (Or.inl (by decide))).2.1⟩

/-- C3 at a file without the `application` member. -/
theorem handlePut_missing_mandatory_fields_witness :
    exampleEnv.ReadFile "noapp.json" = .ok noApplicationFile ∧
    exampleEnv.Unmarshal noApplicationFile = .ok noApplicationEntry ∧
    noApplicationEntry.Application = "" ∧
    handlePut exampleEnv ⟨["noapp.json"], [], exampleCRUD, exampleList⟩
      = ⟨[], [Event.print "Enter the path to the file for PUT:\n",
          Event.print
            "Error: Missing mandatory fields (date and application) in the JSON file.\n"],
          exampleCRUD, exampleList⟩ :=
  ⟨by decide, by decide, rfl,
    (handlePut_missing_mandatory_fields exampleEnv "noapp.json" [] [] exampleCRUD exampleList
      noApplicationFile noApplicationEntry (by decide) (by decide) (Or.inr rfl)).1⟩

/-- C4 (as amended) at the file of the round-trip example. -/
theorem handlePut_request_witness :
    exampleEnv.ReadFile "entry.json" = .ok exampleFile ∧
    exampleEnv.Unmarshal exampleFile = .ok exampleEntry ∧
    sent (handlePut exampleEnv ⟨["entry.json"], [], exampleCRUD, exampleList⟩).out
      = [⟨"PUT",
          "http://abc123.execute-api.localhost.localstack.cloud:4566/dev/entry?date=2024-01-01&application=svcA",
          some exampleFile, [("Content-Type", "application/json")]⟩] := by
  refine ⟨by decide, by decide, ?_⟩
  rw [(handlePut_request exampleEnv "entry.json" [] [] exampleCRUD exampleList exampleFile
    exampleEntry (by decide) (by decide) (by decide) (by decide)).1 (by decide)]
  decide

/-- C5 (as amended) at the file of the round-trip example: the PUT URL reads
back as date 2024-01-01 and application svcA. -/
theorem handlePut_query_round_trip_witness :
    exampleEnv.ReadFile "entry.json" = .ok exampleFile ∧
    exampleEnv.Unmarshal exampleFile = .ok exampleEntry ∧
    queryParameters (sprintfQuery exampleCRUD exampleEntry.Date exampleEntry.Application)
      = [("date", "2024-01-01"), ("application", "svcA")] :=
  ⟨by decide, by decide,
    (handlePut_query_round_trip exampleEnv "entry.json" [] [] exampleCRUD exampleList
      exampleFile exampleEntry (by decide) (by decide) (by decide) (by decide) (by decide)
      (by decide) (by decide) (by decide) (by decide) (by decide)).1⟩

/-- C8 at the tokens "Quit" and "QUIT": neither leaves the loop, both get the
invalid-command message. -/
theorem commandLoop_step_witness :
    (loopBody exampleEnv ⟨["Quit", "QUIT"], [], exampleCRUD, exampleList⟩
      = (⟨["QUIT"], [Event.print "Available commands: post, put, delete, find, list, quit\n",
            Event.print "Enter command: ",
            Event.print "Invalid command. Please try again.\n"], exampleCRUD, exampleList⟩,
          false)) ∧
    (loopBody exampleEnv ⟨["QUIT"], [], exampleCRUD, exampleList⟩
      = (⟨[], [Event.print "Available commands: post, put, delete, find, list, quit\n",
            Event.print "Enter command: ",
            Event.print "Invalid command. Please try again.\n"], exampleCRUD, exampleList⟩,
          false)) ∧
    commandLoop exampleEnv 1 ⟨["quit"], [], exampleCRUD, exampleList⟩
      = some ⟨[], [Event.print "Available commands: post, put, delete, find, list, quit\n",
            Event.print "Enter command: ", Event.print "Exiting...\n"],
          exampleCRUD, exampleList⟩ :=
  ⟨((commandLoop_step exampleEnv "Quit" ["QUIT"] [] exampleCRUD exampleList).2.2.2
      (by decide)).1,
    ((commandLoop_step exampleEnv "QUIT" [] [] exampleCRUD exampleList).2.2.2 (by decide)).1,
    (commandLoop_step exampleEnv "quit" [] [] exampleCRUD exampleList).2.1 rfl 0⟩

/-- C9 (as amended) at inputs with surrounding blanks. -/
theorem delete_find_same_contract_witness :
    sent (handleFind exampleEnv ⟨[" 2024-01-01", "svcA "], [], exampleCRUD, exampleList⟩).out
      = [⟨"GET",
          "http://abc123.execute-api.localhost.localstack.cloud:4566/dev/entry?date=2024-01-01&application=svcA",
          none, []⟩] ∧
    sent (handleDelete exampleEnv ⟨[" 2024-01-01", "svcA "], [], exampleCRUD, exampleList⟩).out
      = [⟨"DELETE",
          "http://abc123.execute-api.localhost.localstack.cloud:4566/dev/entry?date=2024-01-01&application=svcA",
          none, []⟩] := by
  have h := (delete_find_same_contract exampleEnv " 2024-01-01" "svcA " [] [] exampleCRUD
    exampleList).2.2 (by decide) (by decide)
  refine ⟨?_, ?_⟩
  · rw [h.1 (by decide)]; decide
  · rw [h.2.2.1 (by decide)]; decide

/-- C10 at the file of the round-trip example and at a path that does not exist. -/
theorem handlePost_request_witness :
    sent (handlePost exampleEnv ⟨["entry.json"], [], exampleCRUD, exampleList⟩).out
      = [⟨"POST", "http://abc123.execute-api.localhost.localstack.cloud:4566/dev/entry",
          some exampleFile, [("Content-Type", "application/json")]⟩] ∧
    handlePost exampleEnv ⟨["nope.json"], [], exampleCRUD, exampleList⟩
      = ⟨[], [Event.print "Enter the path to the file for POST:\n",
          Event.print "Error reading file: open nope.json: no such file or directory\n"],
          exampleCRUD, exampleList⟩ := by
  refine ⟨?_, ?_⟩
  · rw [(handlePost_request exampleEnv "entry.json" [] [] exampleCRUD exampleList).1
      exampleFile (by decide)]
    decide
  · rw [((handlePost_request exampleEnv "nope.json" [] [] exampleCRUD exampleList).2
      "open nope.json: no such file or directory" (by decide)).1]
    decide

end Localstack
